import Mathlib

/-!
Verification of the significant-strike selection pipeline of
`src/option_file.py` (lines 117-124):

```python
significant_options = options_df[
    (options_df["open_interest"] > options_df["open_interest"].quantile(0.80)) |
    (options_df["volume"] > options_df["volume"].quantile(0.80))
]
significant_options = significant_options.groupby("strike")["open_interest"].sum().reset_index()
significant_options = significant_options.sort_values("open_interest", ascending=False).head(5)
top_strikes = significant_options["strike"].tolist()
```

Embedding notes, justified against pandas semantics:

* A DataFrame row is an `OptionRecord`.  `open_interest` and `volume` are
  `Option ℤ`: `none` models the field being absent from the source row
  (which pandas renders as `NaN` when at least one row carries the field,
  and as a missing column when no row does).  Tradier supplies these two
  fields as integers, so `ℤ` is exact; `strike` is a numeric label that
  the pipeline only ever compares, groups by and sorts, never computes
  with, so it is kept as `ℚ`.
* `Series.quantile(0.80)` uses linear interpolation on the sorted non-NaN
  values: at position `q * (n - 1)` the value is
  `v[lo] + frac * (v[lo+1] - v[lo])` with `lo = floor(q*(n-1))` and
  `frac` the fractional part.  With threshold `q = tn/td` this quantile
  is the exact rational `(v[lo]*td + rem*(v[lo+1]-v[lo])) / td` where
  `lo = tn*(n-1)/td` and `rem = tn*(n-1) % td` (floor division and
  remainder).  We carry the quantile as the pair
  (numerator, denominator) and compare `x > quantile` by
  cross-multiplication `x * td > numerator`, which is exact rational
  arithmetic (the source computes in float64; the claims under scrutiny
  are about the exact comparison logic).  The quantile of an empty or
  all-NaN column is `NaN` (`none`), and every comparison against `NaN`
  is false, as in pandas.
* `df[mask]` keeps rows in order: `List.filter`.
* `groupby("strike")[...].sum()` sorts group keys ascending (pandas
  default `sort=True`) and sums with `skipna=True` (`NaN` contributes
  nothing; an all-`NaN` group sums to 0).
* `sort_values("open_interest", ascending=False)` is implemented by
  pandas `nargsort` as an ascending argsort followed by reversal; on the
  small arrays produced here the numpy quicksort runs an insertion-sort
  path, which is stable, so the model is: stable ascending sort by the
  metric, then reverse.
* `.head(5)` is `List.take 5`, `.tolist()` on the `strike` column is
  `List.map Prod.fst`.
* Accessing a column that no input row carries raises `KeyError` in
  pandas (an empty `options_df` from `pd.DataFrame()` has no columns at
  all); `select` models this with `Except`, checking `open_interest`
  first and then `volume`, in the evaluation order of line 118-121.
-/

/-- One row of the options-chain DataFrame (one option contract).
`open_interest`/`volume` are `none` when the source row lacks the field. -/
structure OptionRecord where
  strike : ℚ
  option_type : String
  open_interest : Option ℤ
  volume : Option ℤ
  expiration : String
  deriving Repr, DecidableEq

/-- Insertion step of an ascending insertion sort on integer column values. -/
def insertVal (a : ℤ) : List ℤ → List ℤ
  | [] => [a]
  | b :: l => if a ≤ b then a :: b :: l else b :: insertVal a l

/-- Ascending sort of the non-NaN values of a column, as done inside
`Series.quantile`. -/
def sortVals : List ℤ → List ℤ
  | [] => []
  | a :: l => insertVal a (sortVals l)

/-- Numerator (over denominator `td`) of the `tn/td`-quantile of the sorted
value list `v`, by linear interpolation between the two nearest ranks:
`quantile = (v[lo]*td + rem*(v[lo+1]-v[lo])) / td` where
`lo = tn*(n-1)/td`, `rem = tn*(n-1) % td`.  Models
`Series.quantile(tn/td)` (the source uses `tn/td = 0.80`). -/
def quantileNumerator (tn td : ℕ) (v : List ℤ) : ℤ :=
  let lo : ℕ := tn * (v.length - 1) / td
  let rem : ℕ := tn * (v.length - 1) % td
  let vlo : ℤ := v.getD lo 0
  let vhi : ℤ := v.getD (lo + 1) vlo
  vlo * td + rem * (vhi - vlo)

/-- `Series.quantile(tn/td)` over a column with possibly-missing entries:
drop the missing (`NaN`) entries, sort, interpolate.  The result is the
exact rational `numerator/td`, carried as the pair `(numerator, td)`;
`none` is the `NaN` result on an empty or all-NaN column. -/
def seriesQuantile (tn td : ℕ) (xs : List (Option ℤ)) : Option (ℤ × ℤ) :=
  let v := sortVals (xs.filterMap id)
  if v = [] then none else some (quantileNumerator tn td v, (td : ℤ))

/-- Elementwise `series > scalar` comparison with pandas `NaN` semantics:
any comparison involving a missing value or a `NaN` quantile is `false`.
The quantile scalar `qn/qd` is compared by cross-multiplication
(`qd > 0` for every threshold the source uses). -/
def optGtQ : Option ℤ → Option (ℤ × ℤ) → Bool
  | some a, some (qn, qd) => decide (a * qd > qn)
  | _, _ => false

/-- The `tn/td`-quantile of the `open_interest` column, as on line 119. -/
def oiQuantile (tn td : ℕ) (recs : List OptionRecord) : Option (ℤ × ℤ) :=
  seriesQuantile tn td (recs.map (fun r => r.open_interest))

/-- The `tn/td`-quantile of the `volume` column, as on line 120. -/
def volQuantile (tn td : ℕ) (recs : List OptionRecord) : Option (ℤ × ℤ) :=
  seriesQuantile tn td (recs.map (fun r => r.volume))

/-- Lines 118-121 with the quantile threshold `tn/td` left as a parameter:
keep a row iff `open_interest > oiQuantile` OR `volume > volQuantile`,
both quantiles computed over the whole input population. -/
def significantFilterT (tn td : ℕ) (recs : List OptionRecord) : List OptionRecord :=
  recs.filter (fun r =>
    optGtQ r.open_interest (oiQuantile tn td recs) ||
    optGtQ r.volume (volQuantile tn td recs))

/-- Lines 118-121 as written in the source: threshold `0.80 = 4/5`. -/
def significantFilter (recs : List OptionRecord) : List OptionRecord :=
  significantFilterT 4 5 recs

/-- Insert a strike into a strictly-ascending duplicate-free list of group
keys (how `groupby` assembles its sorted key index). -/
def insertStrike (s : ℚ) : List ℚ → List ℚ
  | [] => [s]
  | b :: l =>
    if s < b then s :: b :: l
    else if s = b then b :: l
    else b :: insertStrike s l

/-- The sorted, duplicate-free list of strikes of a population: the group
keys of `groupby("strike")` (pandas sorts keys ascending by default). -/
def sortedStrikes (recs : List OptionRecord) : List ℚ :=
  (recs.map (fun r => r.strike)).foldr insertStrike []

/-- Sum of `open_interest` over the rows of `recs` at strike `s`, skipping
missing values (pandas `groupby(...).sum()` with `skipna`; an all-NaN
group sums to 0). -/
def groupSum (recs : List OptionRecord) (s : ℚ) : ℤ :=
  (recs.filterMap (fun r => if r.strike = s then r.open_interest else none)).sum

/-- Line 122: `groupby("strike")["open_interest"].sum().reset_index()` —
one `(strike, summed open interest)` row per distinct strike, rows in
ascending strike order. -/
def grouped (recs : List OptionRecord) : List (ℚ × ℤ) :=
  (sortedStrikes recs).map (fun s => (s, groupSum recs s))

/-- Insertion step of a stable ascending insertion sort by the aggregated
metric (the second component): a row is inserted before the first row
whose metric is `≥` its own, so rows with equal metric keep their
original relative order. -/
def insRow (a : ℚ × ℤ) : List (ℚ × ℤ) → List (ℚ × ℤ)
  | [] => [a]
  | b :: l => if a.2 ≤ b.2 then a :: b :: l else b :: insRow a l

/-- Stable ascending sort by aggregated open interest.  Models the
ascending argsort inside pandas `sort_values` (the numpy sort takes the
stable insertion-sort path on arrays of this size). -/
def sortByMetric : List (ℚ × ℤ) → List (ℚ × ℤ)
  | [] => []
  | a :: l => insRow a (sortByMetric l)

/-- Lines 122-123: group, sort by aggregated open interest descending
(pandas: ascending stable argsort, then reverse), keep the first 5. -/
def rankedRows (recs : List OptionRecord) : List (ℚ × ℤ) :=
  ((sortByMetric (grouped (significantFilter recs))).reverse).take 5

/-- Line 124: the ranked strike labels. -/
def top_strikes (recs : List OptionRecord) : List ℚ :=
  (rankedRows recs).map Prod.fst

/-- Failure modes of the pipeline: pandas raises `KeyError` on line 119
(resp. line 120) when no input row carries `open_interest`
(resp. `volume`), in particular when the input is empty
(`pd.DataFrame()` has no columns at all). -/
inductive SelectError where
  | missingOpenInterestColumn
  | missingVolumeColumn
  deriving Repr, DecidableEq

/-- The whole selection, lines 117-124, with its failure modes.  Column
presence is checked in the evaluation order of the Python expression:
`open_interest` (line 119) before `volume` (line 120). -/
def select (recs : List OptionRecord) : Except SelectError (List (ℚ × ℤ)) :=
  if recs.any (fun r => r.open_interest.isSome) then
    if recs.any (fun r => r.volume.isSome) then
      Except.ok (rankedRows recs)
    else Except.error SelectError.missingVolumeColumn
  else Except.error SelectError.missingOpenInterestColumn

/-- The fields of a record the pipeline ever reads: strike, open interest,
volume.  `option_type` and `expiration` never occur in lines 117-124. -/
def obs (r : OptionRecord) : ℚ × Option ℤ × Option ℤ :=
  (r.strike, r.open_interest, r.volume)

/-- Population whose 0.80 open-interest quantile lands exactly on an
existing value: open interests `[0,0,0,10,10]` interpolate to `10`. -/
def c1pop : List OptionRecord :=
  [ ⟨100, "call", some 0, some 0, "2025-03-21"⟩,
    ⟨105, "call", some 0, some 0, "2025-03-21"⟩,
    ⟨110, "call", some 0, some 0, "2025-03-21"⟩,
    ⟨115, "call", some 10, some 0, "2025-03-21"⟩,
    ⟨120, "call", some 10, some 0, "2025-03-21"⟩ ]

/-- The record of `c1pop` whose open interest equals the quantile exactly. -/
def c1rec : OptionRecord := ⟨115, "call", some 10, some 0, "2025-03-21"⟩

/-- Population with exactly two significant strikes: 120 passes on open
interest (quantile 60), 115 passes on volume (quantile 24). -/
def c2pop : List OptionRecord :=
  [ ⟨100, "call", some 10, some 5, "2025-03-21"⟩,
    ⟨105, "call", some 10, some 5, "2025-03-21"⟩,
    ⟨110, "call", some 10, some 5, "2025-03-21"⟩,
    ⟨115, "call", some 50, some 100, "2025-03-21"⟩,
    ⟨120, "call", some 100, some 5, "2025-03-21"⟩ ]

/-- Population producing two groups with equal aggregated open interest:
strike 100 (one record, open interest 100, significant by open interest)
and strike 105 (two records, 60 + 40, significant by open interest and
volume respectively). -/
def c3pop : List OptionRecord :=
  [ ⟨100, "call", some 100, some 0, "2025-03-21"⟩,
    ⟨105, "call", some 60, some 50, "2025-03-21"⟩,
    ⟨105, "put", some 40, some 60, "2025-03-21"⟩,
    ⟨110, "call", some 1, some 1, "2025-03-21"⟩,
    ⟨111, "call", some 2, some 2, "2025-03-21"⟩,
    ⟨112, "call", some 3, some 3, "2025-03-21"⟩,
    ⟨113, "call", some 4, some 4, "2025-03-21"⟩,
    ⟨114, "call", some 5, some 5, "2025-03-21"⟩,
    ⟨115, "call", some 6, some 6, "2025-03-21"⟩,
    ⟨116, "call", some 7, some 7, "2025-03-21"⟩ ]

/-- Same shape as `c2pop`: five records, exactly two significant strikes. -/
def c4pop : List OptionRecord :=
  [ ⟨100, "call", some 10, some 5, "2025-03-21"⟩,
    ⟨105, "call", some 10, some 5, "2025-03-21"⟩,
    ⟨110, "call", some 10, some 5, "2025-03-21"⟩,
    ⟨115, "call", some 50, some 100, "2025-03-21"⟩,
    ⟨120, "call", some 100, some 5, "2025-03-21"⟩ ]

/-- A single-record population. -/
def c6pop : List OptionRecord :=
  [ ⟨100, "call", some 10, some 5, "2025-03-21"⟩ ]

/-- Both fields present on every record, but no record clears the strict
quantile comparison (both columns are constant), so the selection
succeeds with an empty result. -/
def c7okpop : List OptionRecord :=
  [ ⟨100, "call", some 10, some 5, "2025-03-21"⟩,
    ⟨105, "call", some 10, some 5, "2025-03-21"⟩ ]

/-- A non-empty population none of whose records carries `open_interest`. -/
def c7nonepop : List OptionRecord :=
  [ ⟨100, "call", none, none, "2025-03-21"⟩ ]

/-- A small concrete population. -/
def c8pop : List OptionRecord :=
  [ ⟨100, "call", some 1, some 2, "2025-03-21"⟩,
    ⟨105, "put", some 3, some 4, "2025-03-21"⟩ ]

/-- A non-empty population with constant open interest 7 and volume 3. -/
def c9pop : List OptionRecord :=
  [ ⟨100, "call", some 7, some 3, "2025-03-21"⟩,
    ⟨105, "put", some 7, some 3, "2025-03-21"⟩,
    ⟨110, "call", some 7, some 3, "2025-03-21"⟩ ]

/-- Two populations that differ only in the `option_type` of their records. -/
def c10a : List OptionRecord :=
  [ ⟨100, "call", some 10, some 5, "2025-03-21"⟩,
    ⟨105, "put", some 20, some 1, "2025-03-21"⟩ ]

/-- `c10a` with every `option_type` flipped. -/
def c10b : List OptionRecord :=
  [ ⟨100, "put", some 10, some 5, "2025-03-21"⟩,
    ⟨105, "call", some 20, some 1, "2025-03-21"⟩ ]

lemma mem_insertVal (a x : ℤ) (l : List ℤ) : x ∈ insertVal a l ↔ x = a ∨ x ∈ l := by
  induction l with
  | nil => simp [insertVal]
  | cons b t ih =>
    by_cases h : a ≤ b
    · simp [insertVal, h]
    · simp only [insertVal, if_neg h, List.mem_cons, ih]
      tauto

lemma length_insertVal (a : ℤ) (l : List ℤ) : (insertVal a l).length = l.length + 1 := by
  induction l with
  | nil => rfl
  | cons b t ih =>
    by_cases h : a ≤ b
    · simp [insertVal, h]
    · simp [insertVal, h, ih]

lemma mem_sortVals (x : ℤ) (l : List ℤ) : x ∈ sortVals l ↔ x ∈ l := by
  induction l with
  | nil => simp [sortVals]
  | cons a t ih => simp [sortVals, mem_insertVal, ih]

lemma length_sortVals (l : List ℤ) : (sortVals l).length = l.length := by
  induction l with
  | nil => rfl
  | cons a t ih => simp [sortVals, length_insertVal, ih]

lemma mem_insertStrike (s x : ℚ) (l : List ℚ) : x ∈ insertStrike s l ↔ x = s ∨ x ∈ l := by
  induction l with
  | nil => simp [insertStrike]
  | cons b t ih =>
    by_cases h1 : s < b
    · simp [insertStrike, h1]
    · by_cases h2 : s = b
      · subst h2
        rw [insertStrike, if_neg h1, if_pos rfl]
        simp only [List.mem_cons]
        tauto
      · simp only [insertStrike, if_neg h1, if_neg h2, List.mem_cons, ih]
        tauto

lemma pairwise_insertStrike (s : ℚ) (l : List ℚ) (h : l.Pairwise (· < ·)) :
    (insertStrike s l).Pairwise (· < ·) := by
  induction l with
  | nil => simp [insertStrike]
  | cons b t ih =>
    rcases List.pairwise_cons.mp h with ⟨hbt, hpt⟩
    by_cases h1 : s < b
    · rw [insertStrike, if_pos h1]
      refine List.pairwise_cons.mpr ⟨?_, h⟩
      intro c hc
      rcases List.mem_cons.mp hc with rfl | hct
      · exact h1
      · exact lt_trans h1 (hbt c hct)
    · by_cases h2 : s = b
      · rw [insertStrike, if_neg h1, if_pos h2]; exact h
      · rw [insertStrike, if_neg h1, if_neg h2]
        refine List.pairwise_cons.mpr ⟨?_, ih hpt⟩
        intro c hc
        rcases (mem_insertStrike s c t).mp hc with rfl | hct
        · exact lt_of_le_of_ne (le_of_not_lt h1) (Ne.symm h2)
        · exact hbt c hct

lemma mem_foldr_insertStrike (l : List ℚ) (x : ℚ) :
    x ∈ l.foldr insertStrike [] ↔ x ∈ l := by
  induction l with
  | nil => simp
  | cons a t ih => simp [mem_insertStrike, ih]

lemma pairwise_foldr_insertStrike (l : List ℚ) :
    (l.foldr insertStrike []).Pairwise (· < ·) := by
  induction l with
  | nil => simp
  | cons a t ih => exact pairwise_insertStrike a _ ih

lemma mem_sortedStrikes (recs : List OptionRecord) (s : ℚ) :
    s ∈ sortedStrikes recs ↔ ∃ r ∈ recs, r.strike = s := by
  rw [sortedStrikes, mem_foldr_insertStrike]
  simp [List.mem_map]

lemma pairwise_sortedStrikes (recs : List OptionRecord) :
    (sortedStrikes recs).Pairwise (· < ·) :=
  pairwise_foldr_insertStrike _

lemma grouped_pairwise_strike (recs : List OptionRecord) :
    (grouped recs).Pairwise (fun x y => x.1 < y.1) := by
  rw [grouped]
  exact (pairwise_sortedStrikes recs).map _ (fun a b h => h)

lemma mem_insRow (a x : ℚ × ℤ) (l : List (ℚ × ℤ)) :
    x ∈ insRow a l ↔ x = a ∨ x ∈ l := by
  induction l with
  | nil => simp [insRow]
  | cons b t ih =>
    by_cases h : a.2 ≤ b.2
    · simp [insRow, h]
    · simp only [insRow, if_neg h, List.mem_cons, ih]
      tauto

lemma length_insRow (a : ℚ × ℤ) (l : List (ℚ × ℤ)) :
    (insRow a l).length = l.length + 1 := by
  induction l with
  | nil => rfl
  | cons b t ih =>
    by_cases h : a.2 ≤ b.2
    · simp [insRow, h]
    · simp [insRow, h, ih]

lemma mem_sortByMetric (x : ℚ × ℤ) (l : List (ℚ × ℤ)) :
    x ∈ sortByMetric l ↔ x ∈ l := by
  induction l with
  | nil => simp [sortByMetric]
  | cons a t ih => simp [sortByMetric, mem_insRow, ih]

lemma length_sortByMetric (l : List (ℚ × ℤ)) :
    (sortByMetric l).length = l.length := by
  induction l with
  | nil => rfl
  | cons a t ih => simp [sortByMetric, length_insRow, ih]

lemma insRow_pairwise (a : ℚ × ℤ) (l : List (ℚ × ℤ))
    (hl : l.Pairwise fun x y => x.2 < y.2 ∨ (x.2 = y.2 ∧ x.1 < y.1))
    (ha : ∀ b ∈ l, a.1 < b.1) :
    (insRow a l).Pairwise fun x y => x.2 < y.2 ∨ (x.2 = y.2 ∧ x.1 < y.1) := by
  induction l with
  | nil => simp [insRow]
  | cons b t ih =>
    rcases List.pairwise_cons.mp hl with ⟨hbt, hpt⟩
    by_cases hab : a.2 ≤ b.2
    · rw [insRow, if_pos hab]
      refine List.pairwise_cons.mpr ⟨?_, hl⟩
      intro c hc
      rcases List.mem_cons.mp hc with rfl | hct
      · rcases lt_or_eq_of_le hab with hlt | heq
        · exact Or.inl hlt
        · exact Or.inr ⟨heq, ha c (List.mem_cons_self c t)⟩
      · rcases hbt c hct with h1 | ⟨h1, h2⟩
        · exact Or.inl (lt_of_le_of_lt hab h1)
        · rcases lt_or_eq_of_le hab with hlt | heq
          · exact Or.inl (h1 ▸ hlt)
          · exact Or.inr ⟨heq.trans h1, ha c (List.mem_cons_of_mem b hct)⟩
    · rw [insRow, if_neg hab]
      refine List.pairwise_cons.mpr
        ⟨?_, ih hpt (fun c hc => ha c (List.mem_cons_of_mem b hc))⟩
      intro c hc
      rcases (mem_insRow a c t).mp hc with rfl | hct
      · exact Or.inl (lt_of_not_le hab)
      · exact hbt c hct

lemma sortByMetric_pairwise (l : List (ℚ × ℤ))
    (h : l.Pairwise fun x y => x.1 < y.1) :
    (sortByMetric l).Pairwise fun x y => x.2 < y.2 ∨ (x.2 = y.2 ∧ x.1 < y.1) := by
  induction l with
  | nil => simp [sortByMetric]
  | cons a t ih =>
    rcases List.pairwise_cons.mp h with ⟨hat, hpt⟩
    rw [sortByMetric]
    exact insRow_pairwise a _ (ih hpt) (fun b hb => hat b ((mem_sortByMetric b t).mp hb))

lemma optGtQ_none (q : Option (ℤ × ℤ)) : optGtQ none q = false := by
  rcases q with _ | ⟨qn, qd⟩ <;> rfl

lemma optGtQ_eq_num (a qn qd : ℤ) (h : a * qd = qn) :
    optGtQ (some a) (some (qn, qd)) = false := by
  simp [optGtQ, ← h]

lemma filterMap_id_all_some (xs : List (Option ℤ)) (a : ℤ)
    (hall : ∀ x ∈ xs, x = some a) :
    (xs.filterMap id).length = xs.length ∧ ∀ y ∈ xs.filterMap id, y = a := by
  induction xs with
  | nil => simp
  | cons x t ih =>
    have hx := hall x (List.mem_cons_self x t)
    subst hx
    obtain ⟨ih1, ih2⟩ := ih (fun z hz => hall z (List.mem_cons_of_mem _ hz))
    constructor
    · simp [List.filterMap_cons, ih1]
    · intro y hy
      rw [List.filterMap_cons] at hy
      rcases List.mem_cons.mp hy with rfl | hy2
      · rfl
      · exact ih2 y hy2

lemma quantileNumerator_const (tn td : ℕ) (h : tn < td) (v : List ℤ) (a : ℤ)
    (hne : v ≠ []) (hall : ∀ y ∈ v, y = a) :
    quantileNumerator tn td v = a * td := by
  have hn : 0 < v.length := List.length_pos.mpr hne
  have htd : 0 < td := Nat.lt_of_le_of_lt (Nat.zero_le tn) h
  have hlo : tn * (v.length - 1) / td < v.length := by
    rw [Nat.div_lt_iff_lt_mul htd]
    calc tn * (v.length - 1) ≤ tn * v.length :=
          Nat.mul_le_mul_left tn (Nat.sub_le _ _)
      _ < td * v.length := (Nat.mul_lt_mul_right hn).mpr h
      _ = v.length * td := Nat.mul_comm td v.length
  have hvlo : v.getD (tn * (v.length - 1) / td) 0 = a := by
    rw [List.getD_eq_getElem v 0 hlo]
    exact hall _ (List.getElem_mem hlo)
  have hvhi : v.getD (tn * (v.length - 1) / td + 1)
      (v.getD (tn * (v.length - 1) / td) 0) = a := by
    by_cases h2 : tn * (v.length - 1) / td + 1 < v.length
    · rw [List.getD_eq_getElem v _ h2]
      exact hall _ (List.getElem_mem h2)
    · rw [List.getD_eq_default _ _ (Nat.le_of_not_lt h2)]
      exact hvlo
  simp only [quantileNumerator]
  rw [hvhi, hvlo]
  simp

lemma seriesQuantile_const (tn td : ℕ) (h : tn < td) (xs : List (Option ℤ)) (a : ℤ)
    (hne : xs ≠ []) (hall : ∀ x ∈ xs, x = some a) :
    seriesQuantile tn td xs = some (a * td, (td : ℤ)) := by
  obtain ⟨hlen, hmem⟩ := filterMap_id_all_some xs a hall
  have hvmem : ∀ y ∈ sortVals (xs.filterMap id), y = a :=
    fun y hy => hmem y ((mem_sortVals y _).mp hy)
  have hvne : sortVals (xs.filterMap id) ≠ [] := by
    intro hcon
    have hl : (sortVals (xs.filterMap id)).length = xs.length := by
      rw [length_sortVals, hlen]
    rw [hcon] at hl
    exact hne (List.length_eq_zero.mp hl.symm)
  simp only [seriesQuantile]
  rw [if_neg hvne, quantileNumerator_const tn td h _ a hvne hvmem]

lemma significantFilterT_const (tn td : ℕ) (h : tn < td) (recs : List OptionRecord)
    (a b : ℤ) (hne : recs ≠ [])
    (hconst : ∀ r ∈ recs, r.open_interest = some a ∧ r.volume = some b) :
    significantFilterT tn td recs = [] := by
  have hoi : oiQuantile tn td recs = some (a * td, (td : ℤ)) := by
    rw [oiQuantile]
    apply seriesQuantile_const tn td h _ a
    · intro hcon
      exact hne (List.map_eq_nil_iff.mp hcon)
    · intro x hx
      rcases List.mem_map.mp hx with ⟨r, hr, rfl⟩
      exact (hconst r hr).1
  have hvol : volQuantile tn td recs = some (b * td, (td : ℤ)) := by
    rw [volQuantile]
    apply seriesQuantile_const tn td h _ b
    · intro hcon
      exact hne (List.map_eq_nil_iff.mp hcon)
    · intro x hx
      rcases List.mem_map.mp hx with ⟨r, hr, rfl⟩
      exact (hconst r hr).2
  rw [significantFilterT, List.filter_eq_nil_iff]
  intro r hr
  rcases hconst r hr with ⟨h1, h2⟩
  simp [h1, h2, hoi, hvol, optGtQ]

/-- Claim C1: a record is retained by the significance filter iff its
open interest is strictly greater than the open-interest quantile of the
population OR its volume is strictly greater than the volume quantile
(quantiles per field, over the whole population); and a record whose
open interest equals the computed quantile exactly (and whose volume
does not clear its quantile) is excluded. -/
theorem significant_filter_strict_quantile (tn td : ℕ) (recs : List OptionRecord)
    (r : OptionRecord) :
    (r ∈ significantFilterT tn td recs ↔
      r ∈ recs ∧ (optGtQ r.open_interest (oiQuantile tn td recs) = true ∨
        optGtQ r.volume (volQuantile tn td recs) = true)) ∧
    (∀ a qn qd : ℤ, r.open_interest = some a → oiQuantile tn td recs = some (qn, qd) →
      a * qd = qn → optGtQ r.volume (volQuantile tn td recs) = false →
      r ∉ significantFilterT tn td recs) := by
  constructor
  · rw [significantFilterT, List.mem_filter, Bool.or_eq_true]
  · intro a qn qd hoi hq heq hvol hmem
    rw [significantFilterT, List.mem_filter, Bool.or_eq_true] at hmem
    rcases hmem with ⟨-, h1 | h2⟩
    · rw [hoi, hq, optGtQ_eq_num a qn qd heq] at h1
      exact Bool.false_ne_true h1
    · rw [hvol] at h2
      exact Bool.false_ne_true h2

/-- Witness for C1: in `c1pop` the open-interest quantile is exactly 10
(`50/5`), and the record at strike 115 with open interest 10 is excluded. -/
theorem significant_filter_strict_quantile_witness :
    c1rec ∉ significantFilterT 4 5 c1pop :=
  (significant_filter_strict_quantile 4 5 c1pop c1rec).2 10 50 5 rfl (by decide)
    (by decide) (by decide)

/-- Claim C2: the pipeline groups the significance-filtered population by
strike, and a row `(s, m)` appears in the grouped output iff `s` is the
strike of some significant record and `m` is the sum of open interest
over all significant records at strike `s`; every row of the final
ranked output carries that group sum. -/
theorem grouped_rows_sum (recs : List OptionRecord) (p : ℚ × ℤ) :
    (p ∈ grouped (significantFilter recs) ↔
      (∃ r ∈ significantFilter recs, r.strike = p.1) ∧
        p.2 = groupSum (significantFilter recs) p.1) ∧
    (p ∈ rankedRows recs → p.2 = groupSum (significantFilter recs) p.1) := by
  have hmem : ∀ (l : List OptionRecord) (q : ℚ × ℤ),
      q ∈ grouped l ↔ (∃ r ∈ l, r.strike = q.1) ∧ q.2 = groupSum l q.1 := by
    intro l q
    rw [grouped, List.mem_map]
    constructor
    · rintro ⟨s, hs, rfl⟩
      exact ⟨(mem_sortedStrikes l s).mp hs, rfl⟩
    · rintro ⟨⟨r, hr, hstrike⟩, hsum⟩
      exact ⟨q.1, (mem_sortedStrikes l q.1).mpr ⟨r, hr, hstrike⟩, Prod.ext rfl hsum.symm⟩
  refine ⟨hmem _ p, ?_⟩
  intro hp
  rw [rankedRows] at hp
  have h1 : p ∈ (sortByMetric (grouped (significantFilter recs))).reverse :=
    List.mem_of_mem_take hp
  have h2 : p ∈ grouped (significantFilter recs) :=
    (mem_sortByMetric p _).mp (List.mem_reverse.mp h1)
  exact ((hmem _ p).mp h2).2

/-- Witness for C2: in `c2pop` the strike-120 group aggregates to 100. -/
theorem grouped_rows_sum_witness :
    ((120 : ℚ), (100 : ℤ)) ∈ grouped (significantFilter c2pop) :=
  (grouped_rows_sum c2pop (120, 100)).1.mpr
    ⟨⟨⟨120, "call", some 100, some 5, "2025-03-21"⟩, by decide, rfl⟩, by decide⟩

/-- Claim C3, amended: the ranked output is sorted by aggregated open
interest descending, but two groups with EQUAL aggregated metric appear
in DESCENDING strike order (the code stable-sorts the ascending-strike
group list by metric and then reverses it), not ascending. -/
theorem ranked_rows_sorted_desc (recs : List OptionRecord) :
    (rankedRows recs).Pairwise fun x y => y.2 ≤ x.2 ∧ (x.2 = y.2 → y.1 < x.1) := by
  have h1 := grouped_pairwise_strike (significantFilter recs)
  have h2 := sortByMetric_pairwise _ h1
  have h3 : (sortByMetric (grouped (significantFilter recs))).reverse.Pairwise
      (fun x y => y.2 < x.2 ∨ (y.2 = x.2 ∧ y.1 < x.1)) :=
    List.pairwise_reverse.mpr h2
  have h4 := List.Pairwise.sublist (List.take_sublist 5 _) h3
  rw [rankedRows]
  refine h4.imp ?_
  rintro a b (hlt | ⟨heq, hfst⟩)
  · exact ⟨le_of_lt hlt, fun hab => absurd (hab ▸ hlt) (lt_irrefl _)⟩
  · exact ⟨le_of_eq heq, fun _ => hfst⟩

/-- Counterexample to C3 as stated: in `c3pop` strikes 100 and 105 tie at
aggregated open interest 100, and the output ranks 105 before 100 —
ties are NOT ordered by ascending strike. -/
theorem ranked_rows_ties_ascending_refuted :
    ¬ (rankedRows c3pop).Pairwise fun x y => x.2 = y.2 → x.1 < y.1 := by decide

/-- Claim C4: whenever the selection succeeds, the result has exactly
`min 5 groupCount` rows, hence never more than 5 (`topN = 5`,
`.head(5)`). -/
theorem select_length_min (recs : List OptionRecord) (rows : List (ℚ × ℤ))
    (h : select recs = Except.ok rows) :
    rows.length = min 5 (grouped (significantFilter recs)).length ∧ rows.length ≤ 5 := by
  have hrows : rows = rankedRows recs := by
    rw [select] at h
    by_cases h1 : recs.any (fun r => r.open_interest.isSome)
    · rw [if_pos h1] at h
      by_cases h2 : recs.any (fun r => r.volume.isSome)
      · rw [if_pos h2] at h
        injection h with h3
        exact h3.symm
      · rw [if_neg h2] at h
        simp at h
    · rw [if_neg h1] at h
      simp at h
  subst hrows
  constructor
  · rw [rankedRows, List.length_take, List.length_reverse, length_sortByMetric]
  · rw [rankedRows, List.length_take, List.length_reverse, length_sortByMetric]
    exact min_le_left _ _

/-- Witness for C4: `c4pop` has exactly two significant strikes, and with
`topN = 5` the result has exactly `min 5 2 = 2` rows. -/
theorem select_length_min_witness :
    (rankedRows c4pop).length = min 5 (grouped (significantFilter c4pop)).length ∧
      (rankedRows c4pop).length ≤ 5 :=
  select_length_min c4pop (rankedRows c4pop) rfl

/-- Counterexample to C5 as stated: on an empty input the selection does
NOT return an empty sequence — it fails (pandas `KeyError`: an empty
`options_df` has no `open_interest` column). -/
theorem select_nil_not_ok : select ([] : List OptionRecord) ≠ Except.ok [] :=
  fun h => Except.noConfusion h

/-- Claim C5, amended: on an empty input the selection fails with the
missing-`open_interest`-column error (pandas `KeyError` on line 119)
instead of returning an empty result. -/
theorem select_nil_error :
    select ([] : List OptionRecord) = Except.error SelectError.missingOpenInterestColumn := rfl

/-- Counterexample to C6 as stated: `c6pop` has a single record (population
size < 2), and that record does NOT pass the significance filter — the
quantile filter is not skipped for tiny populations. -/
theorem single_record_not_all_pass :
    c6pop.length = 1 ∧ ∃ r ∈ c6pop, r ∉ significantFilter c6pop := by decide

lemma seriesQuantile_some_singleton (tn td : ℕ) (a : ℤ) :
    seriesQuantile tn td [some a] = some (a * td, (td : ℤ)) := by
  simp [seriesQuantile, sortVals, insertVal, quantileNumerator]

/-- Claim C6, amended: when the population has fewer than 2 records the
quantile filter is NOT skipped — with one record each quantile equals
the value carried by that record and the strict comparison excludes it, so no
record passes (with zero records the filter output is trivially empty). -/
theorem small_population_filter_empty (recs : List OptionRecord)
    (h : recs.length < 2) : significantFilter recs = [] := by
  rcases recs with _ | ⟨r, _ | ⟨r2, t⟩⟩
  · rfl
  · rw [significantFilter, significantFilterT, List.filter_eq_nil_iff]
    intro x hx
    have hxr : x = r := by
      rcases List.mem_cons.mp hx with rfl | hx2
      · rfl
      · simp at hx2
    subst hxr
    have hoi : optGtQ x.open_interest (oiQuantile 4 5 [x]) = false := by
      rcases hcase : x.open_interest with _ | a
      · exact optGtQ_none _
      · have hq : oiQuantile 4 5 [x] = some (a * 5, 5) := by
          rw [oiQuantile, List.map_cons, List.map_nil, hcase]
          exact seriesQuantile_some_singleton 4 5 a
        rw [hq]
        exact optGtQ_eq_num a (a * 5) 5 rfl
    have hvol : optGtQ x.volume (volQuantile 4 5 [x]) = false := by
      rcases hcase : x.volume with _ | b
      · exact optGtQ_none _
      · have hq : volQuantile 4 5 [x] = some (b * 5, 5) := by
          rw [volQuantile, List.map_cons, List.map_nil, hcase]
          exact seriesQuantile_some_singleton 4 5 b
        rw [hq]
        exact optGtQ_eq_num b (b * 5) 5 rfl
    simp [hoi, hvol]
  · exfalso
    simp [List.length_cons] at h
    omega

/-- Witness for C6, amended form: the single-record population `c6pop`
filters to the empty list. -/
theorem small_population_filter_empty_witness : significantFilter c6pop = [] :=
  small_population_filter_empty c6pop (by decide)

/-- Claim C7: when no record of the population carries the metric field
(in this code the metric is `open_interest`), the selection fails with the
missing-column error (pandas `KeyError`, how this code manifests
`EmptyMetricField`); and this failure is distinct from the successful
empty result `ok []` returned on `c7okpop`, whose records do carry the
field but none of which is significant. -/
theorem missing_metric_column_error :
    (∀ recs : List OptionRecord, (∀ r ∈ recs, r.open_interest = none) →
      select recs = Except.error SelectError.missingOpenInterestColumn) ∧
    (select c7okpop = Except.ok [] ∧ ∃ r ∈ c7okpop, r.open_interest ≠ none) := by
  refine ⟨?_, ?_, ?_⟩
  · intro recs h
    have hany : recs.any (fun r => r.open_interest.isSome) = false := by
      rw [List.any_eq_false]
      intro r hr
      rw [h r hr]
      simp
    rw [select, hany]
    simp
  · rfl
  · decide

/-- Witness for C7: a population none of whose records carries
`open_interest` makes the selection fail with the missing-column error. -/
theorem missing_metric_column_error_witness :
    select c7nonepop = Except.error SelectError.missingOpenInterestColumn :=
  missing_metric_column_error.1 c7nonepop (by decide)

/-- Claim C8: the selection is a pure deterministic function of its input:
two invocations on equal inputs produce equal outputs (in this shallow
embedding the pipeline is a function; the source lines 117-124 invoke
no randomness and read no external state). -/
theorem select_deterministic (recs1 recs2 : List OptionRecord) (h : recs1 = recs2) :
    select recs1 = select recs2 := by rw [h]

/-- Witness for C8. -/
theorem select_deterministic_witness : select c8pop = select c8pop :=
  select_deterministic c8pop c8pop rfl

/-- Claim C9: a non-empty population whose records all share one open
interest `a` and one volume `b` filters to nothing for EVERY quantile
threshold `tn/td < 1` (the quantile of a constant column is that
constant and the strict comparison fails), and the selection of the code
(threshold 0.80) succeeds with an empty result. -/
theorem constant_population_empty (tn td : ℕ) (recs : List OptionRecord) (a b : ℤ)
    (h : tn < td) (hne : recs ≠ [])
    (hconst : ∀ r ∈ recs, r.open_interest = some a ∧ r.volume = some b) :
    significantFilterT tn td recs = [] ∧ select recs = Except.ok [] := by
  refine ⟨significantFilterT_const tn td h recs a b hne hconst, ?_⟩
  have h45 : significantFilter recs = [] := by
    rw [significantFilter]
    exact significantFilterT_const 4 5 (by norm_num) recs a b hne hconst
  have hany1 : recs.any (fun r => r.open_interest.isSome) = true := by
    rw [List.any_eq_true]
    rcases recs with _ | ⟨r, t⟩
    · exact absurd rfl hne
    · exact ⟨r, List.mem_cons_self r t,
        by rw [(hconst r (List.mem_cons_self r t)).1]; rfl⟩
  have hany2 : recs.any (fun r => r.volume.isSome) = true := by
    rw [List.any_eq_true]
    rcases recs with _ | ⟨r, t⟩
    · exact absurd rfl hne
    · exact ⟨r, List.mem_cons_self r t,
        by rw [(hconst r (List.mem_cons_self r t)).2]; rfl⟩
  rw [select, hany1, hany2]
  simp [rankedRows, h45, grouped, sortedStrikes, sortByMetric]

/-- Witness for C9: three records with constant open interest 7 and
volume 3. -/
theorem constant_population_empty_witness :
    significantFilterT 4 5 c9pop = [] ∧ select c9pop = Except.ok [] :=
  constant_population_empty 4 5 c9pop 7 3 (by decide) (by decide) (by decide)

lemma map_obs_proj {β : Type} (recs1 recs2 : List OptionRecord)
    (h : recs1.map obs = recs2.map obs) (f : ℚ × Option ℤ × Option ℤ → β) :
    recs1.map (fun r => f (obs r)) = recs2.map (fun r => f (obs r)) := by
  calc recs1.map (fun r => f (obs r)) = (recs1.map obs).map f := by
        rw [List.map_map]; rfl
    _ = (recs2.map obs).map f := by rw [h]
    _ = recs2.map (fun r => f (obs r)) := by rw [List.map_map]; rfl

/-- Claim C10: the pipeline never reads `option_type` (or `expiration`):
any two inputs whose records agree pointwise on strike, open interest
and volume — in particular inputs differing only in `option_type`,
calls and puts being pooled into one population — produce identical
selections. -/
theorem select_ignores_option_type (recs1 recs2 : List OptionRecord)
    (h : recs1.map obs = recs2.map obs) : select recs1 = select recs2 := by
  have hoi : recs1.map (fun r => r.open_interest) = recs2.map (fun r => r.open_interest) :=
    map_obs_proj recs1 recs2 h (fun t => t.2.1)
  have hvol : recs1.map (fun r => r.volume) = recs2.map (fun r => r.volume) :=
    map_obs_proj recs1 recs2 h (fun t => t.2.2)
  have hqoi : oiQuantile 4 5 recs1 = oiQuantile 4 5 recs2 := by
    rw [oiQuantile, oiQuantile, hoi]
  have hqvol : volQuantile 4 5 recs1 = volQuantile 4 5 recs2 := by
    rw [volQuantile, volQuantile, hvol]
  have hfilobs : (significantFilter recs1).map obs = (significantFilter recs2).map obs := by
    rw [significantFilter, significantFilter, significantFilterT, significantFilterT,
      hqoi, hqvol]
    have e : ∀ l : List OptionRecord,
        (l.filter fun r =>
            optGtQ r.open_interest (oiQuantile 4 5 recs2) ||
            optGtQ r.volume (volQuantile 4 5 recs2)).map obs =
          (l.map obs).filter fun t =>
            optGtQ t.2.1 (oiQuantile 4 5 recs2) ||
            optGtQ t.2.2 (volQuantile 4 5 recs2) := by
      intro l
      rw [List.filter_map]
      rfl
    rw [e, e, h]
  have hgs : ∀ s, groupSum (significantFilter recs1) s = groupSum (significantFilter recs2) s := by
    intro s
    have e : ∀ l : List OptionRecord,
        groupSum l s = ((l.map obs).filterMap fun t => if t.1 = s then t.2.1 else none).sum := by
      intro l
      rw [groupSum, List.filterMap_map]
      rfl
    rw [e, e, hfilobs]
  have hss : sortedStrikes (significantFilter recs1) = sortedStrikes (significantFilter recs2) := by
    rw [sortedStrikes, sortedStrikes]
    have e : ∀ l : List OptionRecord,
        l.map (fun r => r.strike) = (l.map obs).map fun t => t.1 := by
      intro l
      rw [List.map_map]
      rfl
    rw [e, e, hfilobs]
  have hgr : grouped (significantFilter recs1) = grouped (significantFilter recs2) := by
    rw [grouped, grouped, hss]
    have e : (fun s => (s, groupSum (significantFilter recs1) s)) =
        (fun s => (s, groupSum (significantFilter recs2) s)) := by
      funext s
      rw [hgs s]
    rw [e]
  have hrr : rankedRows recs1 = rankedRows recs2 := by
    rw [rankedRows, rankedRows, hgr]
  have hany1 : recs1.any (fun r => r.open_interest.isSome) =
      recs2.any (fun r => r.open_interest.isSome) := by
    have e : ∀ l : List OptionRecord,
        l.any (fun r => r.open_interest.isSome) = (l.map obs).any fun t => t.2.1.isSome := by
      intro l
      induction l with
      | nil => rfl
      | cons x t ih => simp [List.any_cons, ih, obs]
    rw [e, e, h]
  have hany2 : recs1.any (fun r => r.volume.isSome) =
      recs2.any (fun r => r.volume.isSome) := by
    have e : ∀ l : List OptionRecord,
        l.any (fun r => r.volume.isSome) = (l.map obs).any fun t => t.2.2.isSome := by
      intro l
      induction l with
      | nil => rfl
      | cons x t ih => simp [List.any_cons, ih, obs]
    rw [e, e, h]
  rw [select, select, hany1, hany2, hrr]

/-- Witness for C10: `c10a` and `c10b` differ only in `option_type` and
select identically. -/
theorem select_ignores_option_type_witness : select c10a = select c10b :=
  select_ignores_option_type c10a c10b (by decide)
